import Mathlib

/-
Verification development for `modelSED/sed.py` (class `SED`).

Shallow embedding conventions:
* Python floats are modelled as exact rationals (`ℚ`); the numerical claims
  under scrutiny are about exact arithmetic identities (means, bin edges),
  so `ℚ` is the faithful idealisation used throughout.
* A pandas `DataFrame` of measurements is a `List Measurement`; the
  aggregated table built by `get_mean_magnitudes` is a `List AggRow`
  (row order follows the Python iteration order).
* Fallible Python code (raised exceptions) is modelled with
  `Except String`; the error string records which Python exception fires.
* `np.linspace(lo, hi, num = n + 1)` is `binEdge lo hi n i` for
  `i = 0 .. n`; `pandas.Series.unique` (first-occurrence order) is
  `uniqueFirst`; `np.mean` is `mean`.
-/

set_option autoImplicit false
set_option maxRecDepth 2000

deriving instance DecidableEq for Except

namespace ModelSED

/-- First-occurrence deduplication, the semantics of `pandas.unique`:
`seen` accumulates the values already emitted. -/
def uniqueFirstAux {α : Type} [DecidableEq α] (seen : List α) : List α → List α
  | [] => []
  | x :: xs =>
    if x ∈ seen then uniqueFirstAux seen xs
    else x :: uniqueFirstAux (x :: seen) xs

/-- Model of `pandas.Series.unique`: the distinct values of a list in first-occurrence
order. -/
def uniqueFirst {α : Type} [DecidableEq α] (l : List α) : List α :=
  uniqueFirstAux [] l

/-- Sequential effectful map over `Except`, stopping at the first error
(the semantics of a Python `for` loop raising an exception). -/
def exceptMapM {α β : Type} (f : α → Except String β) : List α → Except String (List β)
  | [] => .ok []
  | a :: as =>
    match f a with
    | .error e => .error e
    | .ok b =>
      match exceptMapM f as with
      | .error e => .error e
      | .ok bs => .ok (b :: bs)

/-- Model of `np.mean` on a list of rationals. -/
def mean (xs : List ℚ) : ℚ :=
  xs.sum / (xs.length : ℚ)

/-- Model of `np.min` of a nonempty list (`np.min` raises on an empty array; callers
guard for emptiness explicitly). -/
def minList : List ℚ → ℚ
  | [] => 0
  | x :: xs => xs.foldl min x

/-- Model of `np.max` of a nonempty list. -/
def maxList : List ℚ → ℚ
  | [] => 0
  | x :: xs => xs.foldl max x

/-- One measurement row of the lightcurve table: columns `obsmjd`, `mag`,
`mag_err`, `telescope_band` and the optional predefined `bin` label. -/
structure Measurement where
  obsmjd : ℚ
  mag : ℚ
  mag_err : ℚ
  telescope_band : String
  bin : ℤ
deriving DecidableEq, Repr

/-- One row of the aggregated table built by `get_mean_magnitudes`. -/
structure AggRow where
  telescope_band : String
  wavelength : ℚ
  mean_obsmjd : ℚ
  entries : ℕ
  mean_mag : ℚ
  mean_mag_err : ℚ
deriving DecidableEq, Repr

/-- The state held by an `SED` object after construction: the configuration
plus the loaded lightcurve and the `filter_wl` wavelength table
(an association list, the JSON mapping `telescope_band ↦ wavelength`). -/
structure SEDState where
  redshift : ℚ
  nbins : ℕ
  fittype : String
  filter_wl : List (String × ℚ)
  lc : List Measurement
deriving DecidableEq, Repr

/-- Lookup in the `filter_wl` wavelength table; `none` models the Python
`KeyError` on `self.filter_wl[telescope_band]`. -/
def lookupWl (filter_wl : List (String × ℚ)) (band : String) : Option ℚ :=
  (filter_wl.find? (fun p => p.1 == band)).map Prod.snd

/-- Edge `i` of `np.linspace(a, b, num = n + 1)`:
`mjd_iter[i] = a + (b - a) * i / n`. -/
def binEdge (a b : ℚ) (n : ℕ) (i : ℕ) : ℚ :=
  a + (b - a) * i / n

/-- The query `lc.query("obsmjd >= lo and obsmjd < hi")`. -/
def binQuery (lc : List Measurement) (lo hi : ℚ) : List Measurement :=
  lc.filter (fun m => decide (lo ≤ m.obsmjd ∧ m.obsmjd < hi))

/-- Error message for `np.min` / `np.max` on an empty lightcurve. -/
def valueErrorMsg : String :=
  "ValueError: zero-size array to reduction operation minimum which has no identity"

/-- Error message for accessing column `mean_obsmjd` of an empty
`pd.DataFrame()` that never had a row appended. -/
def attributeErrorMsg : String :=
  "AttributeError: DataFrame object has no attribute mean_obsmjd"

/-- Error message for `self.filter_wl[telescope_band]` with an unknown band. -/
def keyErrorMsg (band : String) : String :=
  "KeyError: " ++ band

/-- Error message for `fit_bins` without a `bands` keyword argument:
line 192 reads `binned_lc_df` which is only assigned at line 207. -/
def unboundLocalMsg : String :=
  "UnboundLocalError: local variable binned_lc_df referenced before assignment"

/-- Error message for `len(bands)` with `bands = None` in `fit_global`. -/
def typeErrorMsg : String :=
  "TypeError: object of type NoneType has no len"

/-- Error message for `lc.drop(columns=[Unnamed: 0])` when the column is
absent. -/
def unnamedKeyErrorMsg : String :=
  "KeyError: Unnamed: 0"

/-- The inner loop body of `get_mean_magnitudes`: given a bin's rows `df`
and the representative time `mean_obsmjd`, emit one aggregated row per
distinct `telescope_band` of `df` (in first-occurrence order), with the
unweighted mean magnitude, mean magnitude error, the row count and the
looked-up wavelength; an unknown band raises `KeyError`. -/
def aggRowsFor (filter_wl : List (String × ℚ)) (mean_obsmjd : ℚ)
    (df : List Measurement) : Except String (List AggRow) :=
  exceptMapM (fun tb =>
      match lookupWl filter_wl tb with
      | none => .error (keyErrorMsg tb)
      | some wl =>
        let tdf := df.filter (fun m => decide (m.telescope_band = tb))
        .ok { telescope_band := tb
              wavelength := wl
              mean_obsmjd := mean_obsmjd
              entries := tdf.length
              mean_mag := mean (tdf.map (·.mag))
              mean_mag_err := mean (tdf.map (·.mag_err)) })
    (uniqueFirst (df.map (·.telescope_band)))

/-- The `bands_to_fit` default (lines 94-97): the Python `None` means all
keys of the wavelength table. -/
def bandsToFit (filter_wl : List (String × ℚ)) : Option (List String) → List String
  | none => filter_wl.map Prod.fst
  | some bs => bs

/-- One iteration of the equal-width bin loop of `get_mean_magnitudes`
(lines 112-134): index `len(mjd_iter) - 1` is skipped, every other index
aggregates the query `obsmjd >= e[i] and obsmjd < e[i+1]` with
representative time `np.mean([e[i], e[i+1]])`. -/
def binRowsAt (filter_wl : List (String × ℚ)) (n : ℕ) (a b : ℚ)
    (lc : List Measurement) (index : ℕ) : Except String (List AggRow) :=
  if index ≠ n then
    aggRowsFor filter_wl
      (mean [binEdge a b n index, binEdge a b n (index + 1)])
      (binQuery lc (binEdge a b n index) (binEdge a b n (index + 1)))
  else .ok []

/-- The equal-width `temp_df` (lines 111-134): the rows of all
`nbins + 1` loop iterations, concatenated in loop order. -/
def equalWidthTempDf (filter_wl : List (String × ℚ)) (n : ℕ) (a b : ℚ)
    (lc : List Measurement) : Except String (List AggRow) :=
  (exceptMapM (binRowsAt filter_wl n a b lc) (List.range (n + 1))).map List.flatten

/-- One iteration of the predefined-bin loop (lines 138-158): the group of
rows with the given `bin` label, representative time
`np.mean(df["obsmjd"])`. -/
def predefBinRows (filter_wl : List (String × ℚ)) (lc : List Measurement)
    (b : ℤ) : Except String (List AggRow) :=
  aggRowsFor filter_wl
    (mean ((lc.filter (fun m => decide (m.bin = b))).map (·.obsmjd)))
    (lc.filter (fun m => decide (m.bin = b)))

/-- The predefined-bin `temp_df` (lines 136-158): one group per distinct
`bin` label in first-occurrence order. -/
def predefTempDf (filter_wl : List (String × ℚ)) (lc : List Measurement) :
    Except String (List AggRow) :=
  (exceptMapM (predefBinRows filter_wl lc) (uniqueFirst (lc.map (·.bin)))).map
    List.flatten

/-- The construction of `temp_df` in `get_mean_magnitudes` (lines 86-158):
emptiness check for `np.min`, bin edges from the *unfiltered* lightcurve,
the band filter, and then either the equal-width bin loop or the
predefined-bin loop. -/
def computeTempDf (s : SEDState) (bands : Option (List String)) (bins_from_df : Bool) :
    Except String (List AggRow) :=
  if s.lc.isEmpty then .error valueErrorMsg
  else
    let lc := s.lc.filter
      (fun m => decide (m.telescope_band ∈ bandsToFit s.filter_wl bands))
    if bins_from_df = false then
      equalWidthTempDf s.filter_wl s.nbins (minList (s.lc.map (·.obsmjd)))
        (maxList (s.lc.map (·.obsmjd))) lc
    else
      predefTempDf s.filter_wl lc

/-- The qualification loop of `get_mean_magnitudes` (lines 160-168): for
each distinct `mean_obsmjd` (first-occurrence order) take the group of
aggregated rows with that value and keep it when the group has at least
`min_bands_per_bin` rows and the necessary bands are a subset of the
group's `telescope_band`s. -/
def qualifyBins (min_bands_per_bin : ℕ) (neccessary_bands : List String)
    (temp_df : List AggRow) : List AggRow :=
  (uniqueFirst (temp_df.map (·.mean_obsmjd))).flatMap (fun mjd =>
    if min_bands_per_bin ≤ (temp_df.filter (fun r => decide (r.mean_obsmjd = mjd))).length ∧
        ∀ b ∈ neccessary_bands,
          b ∈ uniqueFirst ((temp_df.filter
            (fun r => decide (r.mean_obsmjd = mjd))).map (·.telescope_band))
    then temp_df.filter (fun r => decide (r.mean_obsmjd = mjd)) else [])

/-- Model of `SED.get_mean_magnitudes` (lines 78-170). `bands = none`,
`min_bands_per_bin = none` and `neccessary_bands = none` are the Python
`None` defaults (all known bands, 2, and `[]` respectively). Accessing
`temp_df.mean_obsmjd` on an empty appended-to-never `pd.DataFrame()`
raises `AttributeError`. -/
def get_mean_magnitudes (s : SEDState) (bands : Option (List String))
    (min_bands_per_bin : Option ℕ) (neccessary_bands : Option (List String))
    (bins_from_df : Bool) : Except String (List AggRow) :=
  match computeTempDf s bands bins_from_df with
  | .error e => .error e
  | .ok temp_df =>
    if temp_df.isEmpty then .error attributeErrorMsg
    else .ok (qualifyBins (min_bands_per_bin.getD 2) (neccessary_bands.getD [])
      temp_df)

/-- Observable events of a `fit_bins` run: one `fitBin` per distinct
`mean_obsmjd` of the qualified table (the call to `fit_one_bin`), and
`writeResults` for the single `json.dump` of the complete `fitparams`
mapping. -/
inductive Event where
  | fitBin (mean_obsmjd : ℚ)
  | writeResults (numBins : ℕ)
deriving DecidableEq, Repr

/-- Whether an event is the persistence write. -/
def isWriteEvent : Event → Bool
  | .writeResults _ => true
  | .fitBin _ => false

/-- Model of `SED.fit_bins` (lines 172-227), returning the trace of fit / write
events. Calling without a `bands` keyword reaches line 192
(`bands = binned_lc_df.telescope_band.unique()`) where `binned_lc_df` is a
local assigned only at line 207, so the call raises `UnboundLocalError`.
With `bands` given, `min_bands_per_bin` defaults to `len(bands)` and
`neccessary_bands` to `[]`; then the aggregated table is computed, each
bin is fit in order, and a single write of the whole mapping follows the
loop. `ProgressBar(len(binned_lc_df.mean_obsmjd.unique()))` on an empty
result table raises `AttributeError` before any fit. -/
def fit_bins (s : SEDState) (bands : Option (List String))
    (min_bands_per_bin : Option ℕ) (neccessary_bands : Option (List String))
    (bins_from_df : Bool) : Except String (List Event) :=
  match bands with
  | none => .error unboundLocalMsg
  | some bs =>
    match get_mean_magnitudes s (some bs) (some (min_bands_per_bin.getD bs.length))
        (some (neccessary_bands.getD [])) bins_from_df with
    | .error e => .error e
    | .ok binned_lc_df =>
      if binned_lc_df.isEmpty then .error attributeErrorMsg
      else
        let mjds := uniqueFirst (binned_lc_df.map (·.mean_obsmjd))
        .ok (mjds.map Event.fitBin ++ [Event.writeResults mjds.length])

/-- Model of `SED.fit_global` (lines 229-271), modelled through the computation of
the effective `min_datapoints` keyword. The aggregated table is computed
first (with the `get_mean_magnitudes` defaults for `min_bands_per_bin`
and `neccessary_bands`); then, when `min_datapoints` is not supplied, it
is set to `len(bands)` — which is `len(None)` (a `TypeError`) when no
`bands` keyword was supplied either. The downstream optimizer call
(`FitSpectrum.fit_global_parameters`, in `fit.py`, outside the embedded
source) is abstracted away: the function returns the effective
`min_datapoints` handed to it. -/
def fit_global (s : SEDState) (bands : Option (List String))
    (min_datapoints : Option ℕ) (bins_from_df : Bool) : Except String ℕ :=
  match get_mean_magnitudes s bands none none bins_from_df with
  | .error e => .error e
  | .ok _binned =>
    match min_datapoints with
    | some k => .ok k
    | none =>
      match bands with
      | some bs => .ok bs.length
      | none => .error typeErrorMsg

/-- The raw CSV table as `pd.read_csv` returns it: its column names and the
parsed measurement rows. -/
structure RawLC where
  columns : List String
  rows : List Measurement
deriving DecidableEq, Repr

/-- Model of `SED.read_lightcurve` (lines 303-313): unconditionally
`lc.drop(columns=["Unnamed: 0"])` — pandas raises `KeyError` when the
column is absent — then insert a `telescope_band` column when missing. -/
def read_lightcurve (t : RawLC) : Except String RawLC :=
  if "Unnamed: 0" ∈ t.columns then
    if "telescope_band" ∈ t.columns.filter (fun c => decide (c ≠ "Unnamed: 0")) then
      .ok ⟨t.columns.filter (fun c => decide (c ≠ "Unnamed: 0")), t.rows⟩
    else
      .ok ⟨t.columns.filter (fun c => decide (c ≠ "Unnamed: 0")) ++ ["telescope_band"], t.rows⟩
  else .error unnamedKeyErrorMsg

/-- The accepted values of the `fittype` argument (line 34). -/
def allowed_fittype : List String := ["powerlaw", "blackbody"]

/-- The message of the exception raised for an invalid `fittype`
(lines 36-39). -/
def fittypeErrorMsg : String :=
  "You have to choose either powerlaw or blackbody as fittype"

/-- Model of `SED.__init__` (lines 24-64): the `fittype` check is the first
statement; `read_lightcurve` runs afterwards (line 61), so an invalid
`fittype` raises before any lightcurve data is touched, whatever the
table contains. -/
def SED_init (redshift : ℚ) (nbins : ℕ) (fittype : String) (t : RawLC)
    (filter_wl : List (String × ℚ)) : Except String SEDState :=
  if fittype ∈ allowed_fittype then
    (read_lightcurve t).map (fun t1 =>
      { redshift := redshift, nbins := nbins, fittype := fittype
        filter_wl := filter_wl, lc := t1.rows })
  else .error fittypeErrorMsg

/-! ### Concrete instances used by counterexamples and witnesses -/

/-- C1 counterexample configuration: one band, two measurements at the two
ends of the time range, a single equal-width bin. -/
def C1s : SEDState :=
  { redshift := 0, nbins := 1, fittype := "powerlaw"
    filter_wl := [("a", 1)]
    lc := [⟨0, 10, 1, "a", 0⟩, ⟨1, 11, 1, "a", 0⟩] }

/-- The measurement of `C1s` sitting exactly at the maximum timestamp. -/
def C1maxM : Measurement := ⟨1, 11, 1, "a", 0⟩

/-- The single aggregated row `get_mean_magnitudes` returns for `C1s`:
only the measurement at time 0 contributes (`entries = 1`). -/
def C1row : AggRow :=
  { telescope_band := "a", wavelength := 1, mean_obsmjd := 1/2
    entries := 1, mean_mag := 10, mean_mag_err := 1 }

/-- C1 witness lightcurve: two measurements spanning `[0, 1]`. -/
def C1wm0 : Measurement := ⟨0, 5, 1, "a", 0⟩

/-- C1 witness measurement at the maximum timestamp. -/
def C1wm1 : Measurement := ⟨1, 6, 1, "a", 0⟩

/-- C2 counterexample configuration: predefined bin labels 0 and 1 whose
mean observation times coincide (bin 0 holds band a at times 0 and 2,
bin 1 holds band b at time 1; both means equal 1). -/
def C2s : SEDState :=
  { redshift := 0, nbins := 30, fittype := "powerlaw"
    filter_wl := [("a", 1), ("b", 2)]
    lc := [⟨0, 10, 1, "a", 0⟩, ⟨2, 11, 1, "a", 0⟩, ⟨1, 12, 1, "b", 1⟩] }

/-- The aggregated row of predefined bin 0 of `C2s`. -/
def C2rowA : AggRow :=
  { telescope_band := "a", wavelength := 1, mean_obsmjd := 1
    entries := 2, mean_mag := 21/2, mean_mag_err := 1 }

/-- The aggregated row of predefined bin 1 of `C2s`: one distinct band
only, yet returned because its mean time collides with bin 0's. -/
def C2rowB : AggRow :=
  { telescope_band := "b", wavelength := 2, mean_obsmjd := 1
    entries := 1, mean_mag := 12, mean_mag_err := 1 }

/-- C4 counterexample configuration: the wavelength table knows band g
only, while the data also holds band x. -/
def C4s : SEDState :=
  { redshift := 0, nbins := 1, fittype := "powerlaw"
    filter_wl := [("g", 5)]
    lc := [⟨0, 10, 1, "x", 0⟩, ⟨1, 11, 1, "g", 0⟩] }

/-- C4 witness configuration with an empty lightcurve (the `ValueError`
case of a bands-omitted call). -/
def C4es : SEDState :=
  { redshift := 0, nbins := 1, fittype := "powerlaw"
    filter_wl := [("g", 5)], lc := [] }

/-- C4 witness configuration whose bands-omitted call succeeds. -/
def C4ws : SEDState :=
  { redshift := 0, nbins := 1, fittype := "powerlaw"
    filter_wl := [("g", 5), ("r", 6)]
    lc := [⟨0, 10, 1, "g", 0⟩, ⟨0, 11, 1, "r", 0⟩, ⟨1, 12, 1, "g", 0⟩] }

/-- The aggregated table of the bands-omitted call on `C4ws`. -/
def C4res : List AggRow :=
  [{ telescope_band := "g", wavelength := 5, mean_obsmjd := 1/2
     entries := 1, mean_mag := 10, mean_mag_err := 1 },
   { telescope_band := "r", wavelength := 6, mean_obsmjd := 1/2
     entries := 1, mean_mag := 11, mean_mag_err := 1 }]

/-- One row of `C4res`. -/
def C4row : AggRow :=
  { telescope_band := "g", wavelength := 5, mean_obsmjd := 1/2
    entries := 1, mean_mag := 10, mean_mag_err := 1 }

/-- C5 witness raw table. -/
def C5t : RawLC :=
  ⟨["Unnamed: 0", "obsmjd", "mag", "mag_err", "telescope", "band"], []⟩

/-- C6 witness configuration: bands g and r share the single bin, so the
bin qualifies under the default `min_bands_per_bin = len(bands) = 2`. -/
def C6s : SEDState :=
  { redshift := 0, nbins := 1, fittype := "powerlaw"
    filter_wl := [("g", 5), ("r", 6)]
    lc := [⟨0, 10, 1, "g", 0⟩, ⟨0, 11, 1, "r", 0⟩, ⟨1, 12, 1, "g", 0⟩] }

/-- The aggregated table of the `fit_bins` run on `C6s`. -/
def C6binned : List AggRow :=
  [{ telescope_band := "g", wavelength := 5, mean_obsmjd := 1/2
     entries := 1, mean_mag := 10, mean_mag_err := 1 },
   { telescope_band := "r", wavelength := 6, mean_obsmjd := 1/2
     entries := 1, mean_mag := 11, mean_mag_err := 1 }]

/-- The event trace of the `fit_bins` run on `C6s`. -/
def C6tr : List Event := [.fitBin (1/2), .writeResults 1]

/-- C7 counterexample configuration (any nonempty lightcurve works). -/
def C7s : SEDState :=
  { redshift := 0, nbins := 1, fittype := "powerlaw"
    filter_wl := [("g", 5), ("r", 6)]
    lc := [⟨0, 10, 1, "g", 0⟩, ⟨1, 11, 1, "r", 0⟩] }

/-- C7 witness configuration: a bands-supplied `fit_global` call on it
completes, with `min_datapoints` defaulted. -/
def C7ws : SEDState :=
  { redshift := 0, nbins := 1, fittype := "powerlaw"
    filter_wl := [("g", 5), ("r", 6)]
    lc := [⟨0, 10, 1, "g", 0⟩, ⟨1, 11, 1, "r", 0⟩] }

/-- C8 witness configuration. -/
def C8s : SEDState :=
  { redshift := 0, nbins := 1, fittype := "powerlaw"
    filter_wl := [("g", 5), ("r", 6)]
    lc := [⟨0, 10, 1, "g", 0⟩, ⟨0, 11, 1, "r", 0⟩, ⟨1, 12, 1, "g", 0⟩] }

/-- The table returned for `C8s` with `min_bands_per_bin = 2`. -/
def C8r1 : List AggRow :=
  [{ telescope_band := "g", wavelength := 5, mean_obsmjd := 1/2
     entries := 1, mean_mag := 10, mean_mag_err := 1 },
   { telescope_band := "r", wavelength := 6, mean_obsmjd := 1/2
     entries := 1, mean_mag := 11, mean_mag_err := 1 }]

/-- The table returned for `C8s` with `min_bands_per_bin = 3`: empty. -/
def C8r2 : List AggRow := []

/-- C9 witness configuration: the (bin, band) groups each hold a single
measurement. -/
def C9s : SEDState :=
  { redshift := 0, nbins := 1, fittype := "powerlaw"
    filter_wl := [("g", 5), ("r", 6)]
    lc := [⟨0, 10, 1, "g", 0⟩, ⟨0, 11, 1, "r", 0⟩, ⟨1, 12, 1, "g", 0⟩] }

/-- The table returned for `C9s` with `min_bands_per_bin = 2`. -/
def C9res : List AggRow :=
  [{ telescope_band := "g", wavelength := 5, mean_obsmjd := 1/2
     entries := 1, mean_mag := 10, mean_mag_err := 1 },
   { telescope_band := "r", wavelength := 6, mean_obsmjd := 1/2
     entries := 1, mean_mag := 11, mean_mag_err := 1 }]

/-- A single-measurement row of `C9res`. -/
def C9row : AggRow :=
  { telescope_band := "g", wavelength := 5, mean_obsmjd := 1/2
    entries := 1, mean_mag := 10, mean_mag_err := 1 }

/-- C10 witness raw table: a clean CSV without the spurious index column. -/
def C10t : RawLC :=
  ⟨["obsmjd", "mag", "mag_err", "telescope", "band"], []⟩

/-! ### Library lemmas -/

theorem filter_subset_self {α : Type} (p : α → Bool) (l : List α) :
    l.filter p ⊆ l :=
  fun _ hx => (List.mem_filter.mp hx).1

theorem mem_uniqueFirstAux {α : Type} [DecidableEq α] {a : α} :
    ∀ (l seen : List α), a ∈ uniqueFirstAux seen l ↔ a ∈ l ∧ a ∉ seen
  | [], seen => by simp [uniqueFirstAux]
  | x :: xs, seen => by
    by_cases h : x ∈ seen
    · rw [uniqueFirstAux, if_pos h, mem_uniqueFirstAux xs seen]
      constructor
      · rintro ⟨h1, h2⟩
        exact ⟨List.mem_cons_of_mem x h1, h2⟩
      · rintro ⟨h1, h2⟩
        rcases List.mem_cons.mp h1 with h3 | h3
        · exact absurd (h3 ▸ h) h2
        · exact ⟨h3, h2⟩
    · rw [uniqueFirstAux, if_neg h, List.mem_cons, mem_uniqueFirstAux xs (x :: seen)]
      constructor
      · rintro (h1 | ⟨h1, h2⟩)
        · subst h1
          exact ⟨List.mem_cons_self a xs, h⟩
        · refine ⟨List.mem_cons_of_mem x h1, fun hc => h2 ?_⟩
          exact List.mem_cons_of_mem x hc
      · rintro ⟨h1, h2⟩
        by_cases hax : a = x
        · exact Or.inl hax
        · rcases List.mem_cons.mp h1 with h3 | h3
          · exact absurd h3 hax
          · refine Or.inr ⟨h3, fun hc => ?_⟩
            rcases List.mem_cons.mp hc with h4 | h4
            · exact hax h4
            · exact h2 h4

theorem mem_uniqueFirst {α : Type} [DecidableEq α] {a : α} {l : List α} :
    a ∈ uniqueFirst l ↔ a ∈ l := by
  rw [uniqueFirst, mem_uniqueFirstAux]
  simp

theorem nodup_uniqueFirstAux {α : Type} [DecidableEq α] :
    ∀ (l seen : List α), (uniqueFirstAux seen l).Nodup
  | [], _ => by simp [uniqueFirstAux]
  | x :: xs, seen => by
    by_cases h : x ∈ seen
    · rw [uniqueFirstAux, if_pos h]
      exact nodup_uniqueFirstAux xs seen
    · rw [uniqueFirstAux, if_neg h]
      refine List.nodup_cons.mpr ⟨fun hc => ?_, nodup_uniqueFirstAux xs (x :: seen)⟩
      exact ((mem_uniqueFirstAux xs (x :: seen)).mp hc).2 (List.mem_cons_self x seen)

theorem nodup_uniqueFirst {α : Type} [DecidableEq α] (l : List α) :
    (uniqueFirst l).Nodup :=
  nodup_uniqueFirstAux l []

theorem toFinset_uniqueFirst {α : Type} [DecidableEq α] (l : List α) :
    (uniqueFirst l).toFinset = l.toFinset := by
  ext a
  simp [List.mem_toFinset, mem_uniqueFirst]

theorem length_uniqueFirst {α : Type} [DecidableEq α] (l : List α) :
    (uniqueFirst l).length = l.toFinset.card := by
  rw [← toFinset_uniqueFirst, List.toFinset_card_of_nodup (nodup_uniqueFirst l)]

theorem length_uniqueFirst_le_of_subset {α : Type} [DecidableEq α]
    {l1 l2 : List α} (h : l1 ⊆ l2) :
    (uniqueFirst l1).length ≤ (uniqueFirst l2).length := by
  rw [length_uniqueFirst, length_uniqueFirst]
  refine Finset.card_le_card (fun a ha => ?_)
  exact List.mem_toFinset.mpr (h (List.mem_toFinset.mp ha))

theorem exceptMapM_ok_mem {α β : Type} {f : α → Except String β} :
    ∀ {l : List α} {l2 : List β}, exceptMapM f l = .ok l2 →
      ∀ b ∈ l2, ∃ a ∈ l, f a = .ok b := by
  intro l
  induction l with
  | nil =>
    intro l2 h b hb
    rw [exceptMapM] at h
    cases h
    simp at hb
  | cons a as ih =>
    intro l2 h b hb
    rw [exceptMapM] at h
    cases ha : f a with
    | error e => rw [ha] at h; simp at h
    | ok b1 =>
      rw [ha] at h
      cases has : exceptMapM f as with
      | error e => rw [has] at h; simp at h
      | ok bs =>
        rw [has] at h
        simp only [Except.ok.injEq] at h
        subst h
        rcases List.mem_cons.mp hb with hb1 | hb1
        · exact ⟨a, List.mem_cons_self a as, hb1 ▸ ha⟩
        · obtain ⟨a1, ha1, hfa1⟩ := ih has b hb1
          exact ⟨a1, List.mem_cons_of_mem a ha1, hfa1⟩

theorem exceptMapM_ok_of_forall {α β : Type} {f : α → Except String β} :
    ∀ {l : List α}, (∀ a ∈ l, ∃ b, f a = .ok b) →
      ∃ l2, exceptMapM f l = .ok l2 := by
  intro l
  induction l with
  | nil =>
    intro _
    exact ⟨[], rfl⟩
  | cons a as ih =>
    intro h
    obtain ⟨b, hb⟩ := h a (List.mem_cons_self a as)
    obtain ⟨bs, hbs⟩ := ih (fun x hx => h x (List.mem_cons_of_mem a hx))
    refine ⟨b :: bs, ?_⟩
    rw [exceptMapM, hb, hbs]

/-- Every entry of the wavelength-table key list has a wavelength. -/
theorem lookupWl_of_mem_keys {filter_wl : List (String × ℚ)} {b : String}
    (h : b ∈ filter_wl.map Prod.fst) : ∃ wl, lookupWl filter_wl b = some wl := by
  induction filter_wl with
  | nil => simp at h
  | cons p ps ih =>
    rw [List.map_cons, List.mem_cons] at h
    by_cases hp : p.1 = b
    · refine ⟨p.2, ?_⟩
      rw [lookupWl, List.find?]
      simp [hp]
    · rcases h with h | h
      · exact absurd h.symm hp
      · obtain ⟨wl, hwl⟩ := ih h
        refine ⟨wl, ?_⟩
        rw [lookupWl, List.find?]
        have : (p.1 == b) = false := beq_eq_false_iff_ne.mpr hp
        rw [this]
        exact hwl

/-- Mean of a singleton list. -/
theorem mean_singleton (x : ℚ) : mean [x] = x := by
  simp [mean]

/-- Characterisation of the rows `aggRowsFor` can return. -/
theorem aggRowsFor_ok_mem {filter_wl : List (String × ℚ)} {mjd : ℚ}
    {df : List Measurement} {rows : List AggRow} {r : AggRow}
    (h : aggRowsFor filter_wl mjd df = .ok rows) (hr : r ∈ rows) :
    ∃ tb ∈ uniqueFirst (df.map (·.telescope_band)), ∃ wl,
      lookupWl filter_wl tb = some wl ∧
      r = { telescope_band := tb
            wavelength := wl
            mean_obsmjd := mjd
            entries := (df.filter (fun m => decide (m.telescope_band = tb))).length
            mean_mag := mean ((df.filter (fun m => decide (m.telescope_band = tb))).map (·.mag))
            mean_mag_err :=
              mean ((df.filter (fun m => decide (m.telescope_band = tb))).map (·.mag_err)) } := by
  obtain ⟨tb, htb, hok⟩ := exceptMapM_ok_mem h r hr
  refine ⟨tb, htb, ?_⟩
  cases hlk : lookupWl filter_wl tb with
  | none => rw [hlk] at hok; cases hok
  | some wl =>
    rw [hlk] at hok
    simp only [Except.ok.injEq] at hok
    exact ⟨wl, rfl, hok.symm⟩

/-- Lemma: `aggRowsFor` succeeds when every band of `df` is in the wavelength
table. -/
theorem aggRowsFor_ok_of_known {filter_wl : List (String × ℚ)} {mjd : ℚ}
    {df : List Measurement}
    (h : ∀ m ∈ df, m.telescope_band ∈ filter_wl.map Prod.fst) :
    ∃ rows, aggRowsFor filter_wl mjd df = .ok rows := by
  apply exceptMapM_ok_of_forall
  intro tb htb
  have htb2 : tb ∈ df.map (·.telescope_band) := mem_uniqueFirst.mp htb
  obtain ⟨m, hm, hmtb⟩ := List.mem_map.mp htb2
  obtain ⟨wl, hwl⟩ := lookupWl_of_mem_keys (hmtb ▸ h m hm)
  rw [hwl]
  exact ⟨_, rfl⟩

/-- Membership in the qualified table: a row survives `qualifyBins` exactly
when it is in `temp_df` and the group of rows sharing its `mean_obsmjd`
meets the two criteria. -/
theorem mem_qualifyBins {mb : ℕ} {necc : List String} {temp_df : List AggRow}
    {r : AggRow} :
    r ∈ qualifyBins mb necc temp_df ↔
      r ∈ temp_df ∧
      mb ≤ (temp_df.filter (fun x => decide (x.mean_obsmjd = r.mean_obsmjd))).length ∧
      ∀ b ∈ necc, b ∈ uniqueFirst
        ((temp_df.filter
          (fun x => decide (x.mean_obsmjd = r.mean_obsmjd))).map (·.telescope_band)) := by
  rw [qualifyBins, List.mem_flatMap]
  constructor
  · rintro ⟨mjd, hmjd, hr⟩
    split_ifs at hr with hc
    · have hr2 := List.mem_filter.mp hr
      have heq : r.mean_obsmjd = mjd := of_decide_eq_true hr2.2
      subst heq
      exact ⟨hr2.1, hc.1, hc.2⟩
    · simp at hr
  · rintro ⟨hmem, hlen, hnec⟩
    refine ⟨r.mean_obsmjd, ?_, ?_⟩
    · exact mem_uniqueFirst.mpr (List.mem_map.mpr ⟨r, hmem, rfl⟩)
    · rw [if_pos ⟨hlen, hnec⟩]
      exact List.mem_filter.mpr ⟨hmem, by simp⟩

/-- The qualified table is a sub-multiset of the aggregated table. -/
theorem qualifyBins_subset {mb : ℕ} {necc : List String}
    {temp_df : List AggRow} : qualifyBins mb necc temp_df ⊆ temp_df :=
  fun _ hr => (mem_qualifyBins.mp hr).1

/-- Every row of a successful equal-width `temp_df` originates from one
`aggRowsFor` call on a sub-list of `lc`. -/
theorem mem_equalWidthTempDf {filter_wl : List (String × ℚ)} {n : ℕ} {a b : ℚ}
    {lc : List Measurement} {temp : List AggRow} {r : AggRow}
    (h : equalWidthTempDf filter_wl n a b lc = .ok temp) (hr : r ∈ temp) :
    ∃ mjd : ℚ, ∃ df : List Measurement, ∃ rows : List AggRow,
      df ⊆ lc ∧ aggRowsFor filter_wl mjd df = .ok rows ∧ r ∈ rows := by
  rw [equalWidthTempDf] at h
  cases hmm : exceptMapM (binRowsAt filter_wl n a b lc) (List.range (n + 1)) with
  | error e => rw [hmm] at h; cases h
  | ok ls =>
    rw [hmm] at h
    simp only [Except.map, Except.ok.injEq] at h
    subst h
    obtain ⟨rows, hrows, hrin⟩ := List.mem_flatten.mp hr
    obtain ⟨index, _, hidx⟩ := exceptMapM_ok_mem hmm rows hrows
    rw [binRowsAt] at hidx
    by_cases hin : index ≠ n
    · rw [if_pos hin] at hidx
      exact ⟨_, _, rows, filter_subset_self _ _, hidx, hrin⟩
    · rw [if_neg hin] at hidx
      cases hidx
      simp at hrin

/-- Every row of a successful predefined-bin `temp_df` originates from one
`aggRowsFor` call on a sub-list of `lc`. -/
theorem mem_predefTempDf {filter_wl : List (String × ℚ)}
    {lc : List Measurement} {temp : List AggRow} {r : AggRow}
    (h : predefTempDf filter_wl lc = .ok temp) (hr : r ∈ temp) :
    ∃ mjd : ℚ, ∃ df : List Measurement, ∃ rows : List AggRow,
      df ⊆ lc ∧ aggRowsFor filter_wl mjd df = .ok rows ∧ r ∈ rows := by
  rw [predefTempDf] at h
  cases hmm : exceptMapM (predefBinRows filter_wl lc)
      (uniqueFirst (lc.map (·.bin))) with
  | error e => rw [hmm] at h; cases h
  | ok ls =>
    rw [hmm] at h
    simp only [Except.map, Except.ok.injEq] at h
    subst h
    obtain ⟨rows, hrows, hrin⟩ := List.mem_flatten.mp hr
    obtain ⟨bl, _, hbl⟩ := exceptMapM_ok_mem hmm rows hrows
    rw [predefBinRows] at hbl
    exact ⟨_, _, rows, filter_subset_self _ _, hbl, hrin⟩

/-- Every row of a successfully computed `temp_df` originates from one
`aggRowsFor` call on a sub-list of the loaded lightcurve. -/
theorem mem_computeTempDf {s : SEDState} {bands : Option (List String)}
    {bfd : Bool} {temp : List AggRow} {r : AggRow}
    (h : computeTempDf s bands bfd = .ok temp) (hr : r ∈ temp) :
    ∃ mjd : ℚ, ∃ df : List Measurement, ∃ rows : List AggRow,
      df ⊆ s.lc ∧ aggRowsFor s.filter_wl mjd df = .ok rows ∧ r ∈ rows := by
  rw [computeTempDf] at h
  by_cases he : s.lc.isEmpty
  · rw [if_pos he] at h; cases h
  rw [if_neg he] at h
  simp only at h
  by_cases hbfd : bfd = false
  · rw [if_pos hbfd] at h
    obtain ⟨mjd, df, rows, hsub, hrows, hrin⟩ := mem_equalWidthTempDf h hr
    exact ⟨mjd, df, rows, hsub.trans (filter_subset_self _ _), hrows, hrin⟩
  · rw [if_neg hbfd] at h
    obtain ⟨mjd, df, rows, hsub, hrows, hrin⟩ := mem_predefTempDf h hr
    exact ⟨mjd, df, rows, hsub.trans (filter_subset_self _ _), hrows, hrin⟩

/-- With the default band selection, `temp_df` is computed without error
on a nonempty lightcurve: the band filter keeps only known bands, so no
wavelength lookup can fail. -/
theorem computeTempDf_none_ok {s : SEDState} {bfd : Bool}
    (h : ¬ s.lc.isEmpty) : ∃ temp, computeTempDf s none bfd = .ok temp := by
  have hknown : ∀ m ∈ s.lc.filter
      (fun m => decide (m.telescope_band ∈ bandsToFit s.filter_wl none)),
      m.telescope_band ∈ s.filter_wl.map Prod.fst := by
    intro m hm
    have := (List.mem_filter.mp hm).2
    exact of_decide_eq_true this
  rw [computeTempDf, if_neg h]
  simp only
  by_cases hbfd : bfd = false
  · rw [if_pos hbfd, equalWidthTempDf]
    have : ∀ i ∈ List.range (s.nbins + 1), ∃ rows,
        binRowsAt s.filter_wl s.nbins (minList (s.lc.map (·.obsmjd)))
          (maxList (s.lc.map (·.obsmjd)))
          (s.lc.filter
            (fun m => decide (m.telescope_band ∈ bandsToFit s.filter_wl none))) i
          = .ok rows := by
      intro i _
      rw [binRowsAt]
      by_cases hin : i ≠ s.nbins
      · rw [if_pos hin]
        refine aggRowsFor_ok_of_known ?_
        intro m hm
        exact hknown m ((List.mem_filter.mp hm).1)
      · rw [if_neg hin]
        exact ⟨[], rfl⟩
    obtain ⟨ls, hls⟩ := exceptMapM_ok_of_forall this
    rw [hls]
    exact ⟨ls.flatten, rfl⟩
  · rw [if_neg hbfd, predefTempDf]
    have : ∀ bl ∈ uniqueFirst ((s.lc.filter
        (fun m => decide (m.telescope_band ∈ bandsToFit s.filter_wl none))).map (·.bin)),
        ∃ rows, predefBinRows s.filter_wl
          (s.lc.filter
            (fun m => decide (m.telescope_band ∈ bandsToFit s.filter_wl none))) bl
          = .ok rows := by
      intro bl _
      rw [predefBinRows]
      refine aggRowsFor_ok_of_known ?_
      intro m hm
      exact hknown m ((List.mem_filter.mp hm).1)
    obtain ⟨ls, hls⟩ := exceptMapM_ok_of_forall this
    rw [hls]
    exact ⟨ls.flatten, rfl⟩

/-- The only error `read_lightcurve` can raise is the `KeyError` for the
missing `Unnamed: 0` column. -/
theorem read_lightcurve_error {t : RawLC} {e : String}
    (h : read_lightcurve t = .error e) : e = unnamedKeyErrorMsg := by
  rw [read_lightcurve] at h
  by_cases h1 : "Unnamed: 0" ∈ t.columns
  · rw [if_pos h1] at h
    by_cases h2 : "telescope_band" ∈ t.columns.filter (fun c => decide (c ≠ "Unnamed: 0"))
    · rw [if_pos h2] at h; cases h
    · rw [if_neg h2] at h; cases h
  · rw [if_neg h1] at h
    exact (Except.error.inj h).symm

/-- Elimination form for a successful `get_mean_magnitudes` call. -/
theorem gmm_ok_elim {s : SEDState} {bands : Option (List String)}
    {mb : Option ℕ} {nb : Option (List String)} {bfd : Bool} {res : List AggRow}
    (h : get_mean_magnitudes s bands mb nb bfd = .ok res) :
    ∃ temp, computeTempDf s bands bfd = .ok temp ∧ temp.isEmpty = false ∧
      res = qualifyBins (mb.getD 2) (nb.getD []) temp := by
  rw [get_mean_magnitudes] at h
  split at h
  · cases h
  · rename_i temp heq
    by_cases he : temp.isEmpty
    · rw [if_pos he] at h; cases h
    · rw [if_neg he] at h
      simp only [Except.ok.injEq] at h
      simp only [Bool.not_eq_true] at he
      exact ⟨temp, heq, he, h.symm⟩

/-- Edge comparison against a time value, rescaled: with `n ≥ 1` and
`a < b`, `binEdge a b n i ≤ t` holds exactly when
`i ≤ (t - a) * n / (b - a)`. -/
theorem binEdge_le_iff {a b t : ℚ} {n : ℕ} (hn : 1 ≤ n) (hab : a < b) (i : ℕ) :
    binEdge a b n i ≤ t ↔ (i : ℚ) ≤ (t - a) * n / (b - a) := by
  have hb : (0:ℚ) < b - a := by linarith
  have hn0 : 0 < n := hn
  have hn2 : (0:ℚ) < (n:ℚ) := by exact_mod_cast hn0
  rw [le_div_iff₀ hb, binEdge]
  constructor
  · intro h
    have h2 : (b - a) * (i:ℚ) / (n:ℚ) ≤ t - a := by linarith
    have h3 := (div_le_iff₀ hn2).mp h2
    linarith
  · intro h
    have h2 : (b - a) * (i:ℚ) ≤ (t - a) * (n:ℚ) := by linarith
    have h3 := (div_le_iff₀ hn2).mpr h2
    linarith

/-- Strict counterpart of `binEdge_le_iff`. -/
theorem lt_binEdge_iff {a b t : ℚ} {n : ℕ} (hn : 1 ≤ n) (hab : a < b) (i : ℕ) :
    t < binEdge a b n i ↔ (t - a) * n / (b - a) < (i : ℚ) := by
  have h1 := binEdge_le_iff (t := t) hn hab i
  constructor
  · intro h
    by_contra hc
    push_neg at hc
    exact absurd (h1.mpr hc) (not_le.mpr h)
  · intro h
    by_contra hc
    push_neg at hc
    exact absurd (h1.mp hc) (not_le.mpr h)

/-! ### Claim theorems -/

/-- C5 (confirmed): constructing an `SED` with a `fittype` other than
`powerlaw` or `blackbody` raises the fittype exception at construction —
for every raw table, i.e. before any lightcurve data is read — while a
valid `fittype` never raises that exception (construction may still fail
later, inside `read_lightcurve`, but with a different error). -/
theorem C5_fittype_checked_at_construction (redshift : ℚ) (nbins : ℕ)
    (fittype : String) (t : RawLC) (wl : List (String × ℚ)) :
    (fittype ∉ allowed_fittype →
      SED_init redshift nbins fittype t wl = .error fittypeErrorMsg) ∧
    (fittype ∈ allowed_fittype →
      SED_init redshift nbins fittype t wl ≠ .error fittypeErrorMsg) := by
  constructor
  · intro h
    rw [SED_init, if_neg h]
  · intro h
    rw [SED_init, if_pos h]
    cases hrd : read_lightcurve t with
    | ok t1 =>
      intro hc
      rw [Except.map] at hc
      cases hc
    | error e =>
      have he := read_lightcurve_error hrd
      subst he
      intro hc
      rw [Except.map] at hc
      have := Except.error.inj hc
      rw [unnamedKeyErrorMsg, fittypeErrorMsg] at this
      exact absurd this (by decide)

/-- C5 witness: an invalid fittype (`"foo"`) is rejected at construction
and a valid one (`"powerlaw"`) never produces the fittype error. -/
theorem C5_witness :
    SED_init 0 30 "foo" C5t [] = .error fittypeErrorMsg ∧
    SED_init 0 30 "powerlaw" C5t [] ≠ .error fittypeErrorMsg :=
  ⟨(C5_fittype_checked_at_construction 0 30 "foo" C5t []).1 (by decide),
   (C5_fittype_checked_at_construction 0 30 "powerlaw" C5t []).2 (by decide)⟩

/-- C10 (confirmed): `read_lightcurve` — also when invoked through
`SED.__init__` with a valid fittype — fails with the `Unnamed: 0`
`KeyError` on every input table that lacks that spurious index column:
the loader drops the column unconditionally before any other processing,
so a clean file cannot be loaded. -/
theorem C10_clean_csv_cannot_load (t : RawLC) (redshift : ℚ) (nbins : ℕ)
    (fittype : String) (wl : List (String × ℚ))
    (h : "Unnamed: 0" ∉ t.columns) (hf : fittype ∈ allowed_fittype) :
    read_lightcurve t = .error unnamedKeyErrorMsg ∧
    SED_init redshift nbins fittype t wl = .error unnamedKeyErrorMsg := by
  have h1 : read_lightcurve t = .error unnamedKeyErrorMsg := by
    rw [read_lightcurve, if_neg h]
  refine ⟨h1, ?_⟩
  rw [SED_init, if_pos hf, h1]
  rfl

/-- C10 witness: a table with the ordinary lightcurve columns and no
`Unnamed: 0` column is rejected. -/
theorem C10_witness :
    read_lightcurve C10t = .error unnamedKeyErrorMsg ∧
    SED_init 0 30 "powerlaw" C10t [] = .error unnamedKeyErrorMsg :=
  C10_clean_csv_cannot_load C10t 0 30 "powerlaw" [] (by decide) (by decide)

/-- C3 (code_bug): every call of `fit_bins` that omits the `bands` keyword
raises `UnboundLocalError` — line 192 reads `binned_lc_df`, a local that
is only assigned at line 207 — instead of defaulting to all known bands
and completing. -/
theorem C3_omitted_bands_raises (s : SEDState) (mb : Option ℕ)
    (nb : Option (List String)) (bfd : Bool) :
    fit_bins s none mb nb bfd = .error unboundLocalMsg :=
  rfl

/-- C7 counterexample: `fit_global` with neither `bands` nor
`min_datapoints` reaches `len(bands)` with `bands = None` and raises
`TypeError`, so the default is not well-defined for such calls. -/
theorem C7_counterexample :
    fit_global C7s none none false = .error typeErrorMsg := by
  with_unfolding_all decide

/-- C7 (corrected): when `bands` is supplied and `min_datapoints` omitted,
the effective `min_datapoints` is `len(bands)`; when both are omitted the
call always fails (with `TypeError` once the aggregation succeeds, or
with the aggregation's own error). -/
theorem C7_min_datapoints_default (s : SEDState) (bs : List String) (bfd : Bool) :
    (∀ r : ℕ, fit_global s (some bs) none bfd = .ok r → r = bs.length) ∧
    (∃ e, fit_global s none none bfd = .error e) := by
  constructor
  · intro r h
    rw [fit_global] at h
    cases hg : get_mean_magnitudes s (some bs) none none bfd with
    | error e => rw [hg] at h; cases h
    | ok binned =>
      rw [hg] at h
      exact (Except.ok.inj h).symm
  · rw [fit_global]
    cases hg : get_mean_magnitudes s none none none bfd with
    | error e => exact ⟨e, rfl⟩
    | ok binned => exact ⟨typeErrorMsg, rfl⟩

/-- C7 witness: on a concrete configuration the bands-supplied call
completes with the defaulted value 2 = len(bands), and the bands-omitted
call errors. -/
theorem C7_witness :
    (2 : ℕ) = (["g", "r"] : List String).length ∧
    (∃ e, fit_global C7ws none none false = .error e) :=
  ⟨(C7_min_datapoints_default C7ws ["g", "r"] false).1 2 (by with_unfolding_all decide),
   (C7_min_datapoints_default C7ws ["g", "r"] false).2⟩

/-- C1 counterexample: in the equal-width run on `C1s` (two measurements,
at the minimum and the maximum timestamp, one bin), the measurement at
the maximum timestamp lies inside `[min(obsmjd), max(obsmjd)]` yet
belongs to zero of the `nbins` half-open bins, and the returned table
aggregates only the other measurement (`entries = 1`). -/
theorem C1_counterexample :
    (minList (C1s.lc.map (·.obsmjd)) ≤ C1maxM.obsmjd ∧
      C1maxM.obsmjd ≤ maxList (C1s.lc.map (·.obsmjd))) ∧
    C1maxM ∈ C1s.lc ∧
    ((List.range C1s.nbins).filter (fun i =>
      decide (C1maxM ∈ binQuery C1s.lc
        (binEdge (minList (C1s.lc.map (·.obsmjd)))
          (maxList (C1s.lc.map (·.obsmjd))) C1s.nbins i)
        (binEdge (minList (C1s.lc.map (·.obsmjd)))
          (maxList (C1s.lc.map (·.obsmjd))) C1s.nbins (i + 1))))).length = 0 ∧
    get_mean_magnitudes C1s none (some 1) none false = .ok [C1row] := by
  with_unfolding_all decide

/-- C6 (confirmed): in every `fit_bins` run that returns a trace, the
results mapping is written exactly once, the write is the final event,
no write precedes it, and every bin of the qualified table has been fit
before the write. -/
theorem C6_single_write_after_fits (s : SEDState) (bs : List String)
    (mb : Option ℕ) (nb : Option (List String)) (bfd : Bool)
    (tr : List Event) (binned : List AggRow)
    (h : fit_bins s (some bs) mb nb bfd = .ok tr)
    (hb : get_mean_magnitudes s (some bs) (some (mb.getD bs.length))
        (some (nb.getD [])) bfd = .ok binned) :
    tr.countP isWriteEvent = 1 ∧
    (∃ k, tr.getLast? = some (Event.writeResults k)) ∧
    (∀ e ∈ tr.dropLast, isWriteEvent e = false) ∧
    (∀ r ∈ binned, Event.fitBin r.mean_obsmjd ∈ tr.dropLast) := by
  simp only [fit_bins] at h
  split at h
  · cases h
  · rename_i binned2 heq2
    rw [heq2] at hb
    have hbe : binned2 = binned := Except.ok.inj hb
    subst hbe
    by_cases he : binned2.isEmpty
    · rw [if_pos he] at h; cases h
    · rw [if_neg he] at h
      simp only [Except.ok.injEq] at h
      subst h
      refine ⟨?_, ?_, ?_, ?_⟩
      · rw [List.countP_append]
        have h0 : ((uniqueFirst (binned2.map (·.mean_obsmjd))).map
            Event.fitBin).countP isWriteEvent = 0 := by
          refine List.countP_eq_zero.mpr ?_
          intro e he2
          obtain ⟨m, _, rfl⟩ := List.mem_map.mp he2
          simp [isWriteEvent]
        rw [h0]
        simp [List.countP_cons, isWriteEvent]
      · exact ⟨(uniqueFirst (binned2.map (·.mean_obsmjd))).length,
          List.getLast?_concat _⟩
      · rw [List.dropLast_concat]
        intro e he2
        obtain ⟨m, _, rfl⟩ := List.mem_map.mp he2
        simp [isWriteEvent]
      · rw [List.dropLast_concat]
        intro r hr
        exact List.mem_map_of_mem _
          (mem_uniqueFirst.mpr (List.mem_map_of_mem _ hr))

/-- C6 witness: the concrete run on `C6s` produces the trace
`[fitBin (1/2), writeResults 1]`, with the single write last. -/
theorem C6_witness :
    C6tr.countP isWriteEvent = 1 ∧
    (∃ k, C6tr.getLast? = some (Event.writeResults k)) ∧
    (∀ e ∈ C6tr.dropLast, isWriteEvent e = false) ∧
    (∀ r ∈ C6binned, Event.fitBin r.mean_obsmjd ∈ C6tr.dropLast) :=
  C6_single_write_after_fits C6s ["g", "r"] none none false C6tr C6binned
    (by with_unfolding_all decide) (by with_unfolding_all decide)

/-- C8 (confirmed): for a fixed lightcurve and fixed other arguments, the
number of qualifying bins — the distinct `mean_obsmjd` groups of the
returned table — never increases when `min_bands_per_bin` increases. -/
theorem C8_qualifying_bins_antitone (s : SEDState) (bands : Option (List String))
    (nb : Option (List String)) (bfd : Bool) (m1 m2 : ℕ)
    (r1 r2 : List AggRow) (h12 : m1 ≤ m2)
    (h1 : get_mean_magnitudes s bands (some m1) nb bfd = .ok r1)
    (h2 : get_mean_magnitudes s bands (some m2) nb bfd = .ok r2) :
    (uniqueFirst (r2.map (·.mean_obsmjd))).length ≤
      (uniqueFirst (r1.map (·.mean_obsmjd))).length := by
  obtain ⟨t1, ht1, he1, hr1⟩ := gmm_ok_elim h1
  obtain ⟨t2, ht2, he2, hr2⟩ := gmm_ok_elim h2
  rw [ht1] at ht2
  have hte : t1 = t2 := Except.ok.inj ht2
  subst hte
  subst hr1
  subst hr2
  apply length_uniqueFirst_le_of_subset
  intro x hx
  obtain ⟨r, hrq, hrx⟩ := List.mem_map.mp hx
  have h3 := mem_qualifyBins.mp hrq
  refine List.mem_map.mpr ⟨r, mem_qualifyBins.mpr ⟨h3.1, ?_, h3.2.2⟩, hrx⟩
  simp only [Option.getD_some] at h3 ⊢
  exact le_trans h12 h3.2.1

/-- C8 witness: on `C8s`, raising `min_bands_per_bin` from 2 to 3 shrinks
the returned table from one qualifying bin to none. -/
theorem C8_witness :
    (uniqueFirst (C8r2.map (·.mean_obsmjd))).length ≤
      (uniqueFirst (C8r1.map (·.mean_obsmjd))).length :=
  C8_qualifying_bins_antitone C8s none none false 2 3 C8r1 C8r2
    (by decide) (by with_unfolding_all decide) (by with_unfolding_all decide)

/-- C9 (confirmed): every row of a table returned by
`get_mean_magnitudes` that aggregates exactly one contributing
measurement (`entries = 1`) carries that measurement's magnitude and
magnitude uncertainty exactly. -/
theorem C9_singleton_mean_exact (s : SEDState) (bands : Option (List String))
    (mb : Option ℕ) (nb : Option (List String)) (bfd : Bool)
    (res : List AggRow) (r : AggRow)
    (h : get_mean_magnitudes s bands mb nb bfd = .ok res) (hr : r ∈ res)
    (h1 : r.entries = 1) :
    ∃ m ∈ s.lc, m.telescope_band = r.telescope_band ∧
      r.mean_mag = m.mag ∧ r.mean_mag_err = m.mag_err := by
  obtain ⟨temp, ht, hne, hres⟩ := gmm_ok_elim h
  subst hres
  have hrt : r ∈ temp := qualifyBins_subset hr
  obtain ⟨mjd, df, rows, hsub, hrows, hrin⟩ := mem_computeTempDf ht hrt
  obtain ⟨tb, htb, wl, hwl, hreq⟩ := aggRowsFor_ok_mem hrows hrin
  subst hreq
  simp only at h1
  obtain ⟨m, hm⟩ := List.length_eq_one.mp h1
  have hmf : m ∈ df.filter (fun x => decide (x.telescope_band = tb)) := by
    rw [hm]
    exact List.mem_singleton_self m
  have hmdf := List.mem_filter.mp hmf
  refine ⟨m, hsub hmdf.1, of_decide_eq_true hmdf.2, ?_, ?_⟩
  · simp only [hm, List.map_cons, List.map_nil]
    exact mean_singleton m.mag
  · simp only [hm, List.map_cons, List.map_nil]
    exact mean_singleton m.mag_err

/-- C9 witness: on `C9s` the returned g-band row has `entries = 1` and
equals the single contributing measurement's magnitude and error. -/
theorem C9_witness :
    ∃ m ∈ C9s.lc, m.telescope_band = C9row.telescope_band ∧
      C9row.mean_mag = m.mag ∧ C9row.mean_mag_err = m.mag_err :=
  C9_singleton_mean_exact C9s none (some 2) none false C9res C9row
    (by with_unfolding_all decide) (by with_unfolding_all decide)
    (by decide)

/-- C4 counterexample: with an explicit `bands` list containing band `x`,
absent from the wavelength table but present in the data, the lookup
`self.filter_wl[telescope_band]` raises a fatal `KeyError` instead of
excluding the row. -/
theorem C4_counterexample :
    get_mean_magnitudes C4s (some ["g", "x"]) (some 1) none false =
      .error (keyErrorMsg "x") := by
  with_unfolding_all decide

/-- C4 (corrected): when the `bands` argument is omitted (`None`), the
band filter restricts the lightcurve to the wavelength-table keys, so
measurements with an unknown `telescope_band` are excluded from the
aggregation and never cause the `KeyError`: such a call can only fail
with the empty-lightcurve `ValueError` or the empty-aggregation
`AttributeError`, and every returned row's band has a wavelength. -/
theorem C4_unknown_band_excluded_by_default (s : SEDState) (mb : Option ℕ)
    (nb : Option (List String)) (bfd : Bool) :
    (∀ e, get_mean_magnitudes s none mb nb bfd = .error e →
      e = valueErrorMsg ∨ e = attributeErrorMsg) ∧
    (∀ (res : List AggRow) (r : AggRow),
      get_mean_magnitudes s none mb nb bfd = .ok res → r ∈ res →
      ∃ wl, lookupWl s.filter_wl r.telescope_band = some wl) := by
  constructor
  · intro e h
    rw [get_mean_magnitudes] at h
    split at h
    · rename_i e2 heq
      have h1 : e2 = e := Except.error.inj h
      subst h1
      by_cases hemp : s.lc.isEmpty
      · rw [computeTempDf, if_pos hemp] at heq
        exact Or.inl (Except.error.inj heq).symm
      · obtain ⟨temp, htemp⟩ := computeTempDf_none_ok hemp
        rw [htemp] at heq
        cases heq
    · rename_i temp heq
      by_cases he : temp.isEmpty
      · rw [if_pos he] at h
        exact Or.inr (Except.error.inj h).symm
      · rw [if_neg he] at h
        cases h
  · intro res r h hr
    obtain ⟨temp, ht, hne, hres⟩ := gmm_ok_elim h
    subst hres
    have hrt : r ∈ temp := qualifyBins_subset hr
    obtain ⟨mjd, df, rows, hsub, hrows, hrin⟩ := mem_computeTempDf ht hrt
    obtain ⟨tb, htb, wl, hwl, hreq⟩ := aggRowsFor_ok_mem hrows hrin
    subst hreq
    exact ⟨wl, hwl⟩

/-- C4 witness: the empty-lightcurve default call errors with the
`ValueError` (one of the two permitted errors), and on `C4ws` the
returned g-row's band has a wavelength. -/
theorem C4_witness :
    (valueErrorMsg = valueErrorMsg ∨ valueErrorMsg = attributeErrorMsg) ∧
    (∃ wl, lookupWl C4ws.filter_wl C4row.telescope_band = some wl) :=
  ⟨(C4_unknown_band_excluded_by_default C4es none none false).1 valueErrorMsg
     (by with_unfolding_all decide),
   (C4_unknown_band_excluded_by_default C4ws (some 2) none false).2 C4res C4row
     (by with_unfolding_all decide) (by with_unfolding_all decide)⟩

/-- C2 counterexample: in the predefined-bin run on `C2s`, bin 1 holds a
single distinct band (fewer than the default `min_bands_per_bin = 2`),
yet its aggregated row `C2rowB` is present in the returned table,
because bin 0's mean observation time collides with bin 1's and the
qualification loop groups rows by `mean_obsmjd`, not by bin label. -/
theorem C2_counterexample :
    get_mean_magnitudes C2s none none none true = .ok [C2rowA, C2rowB] ∧
    (uniqueFirst ((C2s.lc.filter (fun m => decide (m.bin = 1))).map
      (·.telescope_band))).length = 1 ∧
    ¬ (2 ≤ (uniqueFirst ((C2s.lc.filter (fun m => decide (m.bin = 1))).map
      (·.telescope_band))).length) := by
  with_unfolding_all decide

/-- C2 (corrected): a group appears in the table returned by
`get_mean_magnitudes` exactly when the group of aggregated rows sharing
its `mean_obsmjd` is nonempty, has at least `min_bands_per_bin`
(default 2) rows, and contains every necessary band; disqualified groups
are silently absent. The criterion keys on `mean_obsmjd`, not on the
original bin, so bins with colliding mean times are merged before the
test (the counterexample) — within one group the rows of a single bin
have pairwise distinct bands, so absent collisions the row count is the
distinct-band count. -/
theorem C2_bin_qualification (s : SEDState) (bands : Option (List String))
    (mb : Option ℕ) (nb : Option (List String)) (bfd : Bool)
    (temp res : List AggRow) (mjd : ℚ)
    (ht : computeTempDf s bands bfd = .ok temp)
    (hr : get_mean_magnitudes s bands mb nb bfd = .ok res) :
    (∃ r ∈ res, r.mean_obsmjd = mjd) ↔
      ((∃ r ∈ temp, r.mean_obsmjd = mjd) ∧
       mb.getD 2 ≤ (temp.filter (fun r => decide (r.mean_obsmjd = mjd))).length ∧
       ∀ b ∈ nb.getD [], b ∈ (temp.filter
         (fun r => decide (r.mean_obsmjd = mjd))).map (·.telescope_band)) := by
  obtain ⟨temp2, ht2, hne, hres⟩ := gmm_ok_elim hr
  rw [ht] at ht2
  have hte : temp = temp2 := Except.ok.inj ht2
  subst hte
  subst hres
  constructor
  · rintro ⟨r, hrq, hrmjd⟩
    have h3 := mem_qualifyBins.mp hrq
    subst hrmjd
    exact ⟨⟨r, h3.1, rfl⟩, h3.2.1,
      fun b hb => mem_uniqueFirst.mp (h3.2.2 b hb)⟩
  · rintro ⟨⟨r, hrt, hrmjd⟩, hlen, hnec⟩
    subst hrmjd
    exact ⟨r, mem_qualifyBins.mpr
      ⟨hrt, hlen, fun b hb => mem_uniqueFirst.mpr (hnec b hb)⟩, rfl⟩

/-- C2 witness: the qualification criterion instantiated on the concrete
`C2s` run, at the (shared) group time 1. -/
theorem C2_witness :
    (∃ r ∈ [C2rowA, C2rowB], r.mean_obsmjd = 1) ↔
      ((∃ r ∈ [C2rowA, C2rowB], r.mean_obsmjd = 1) ∧
       (2 : ℕ) ≤ (([C2rowA, C2rowB]).filter
         (fun r => decide (r.mean_obsmjd = 1))).length ∧
       ∀ b ∈ ([] : List String), b ∈ (([C2rowA, C2rowB]).filter
         (fun r => decide (r.mean_obsmjd = 1))).map (·.telescope_band)) :=
  C2_bin_qualification C2s none none none true [C2rowA, C2rowB]
    [C2rowA, C2rowB] 1 (by with_unfolding_all decide)
    (by with_unfolding_all decide)

/-- C1 (corrected): with `nbins = n ≥ 1` and strictly increasing edges
(`a < b`), a measurement of the queried lightcurve whose time lies in
`[a, b)` satisfies the half-open query of exactly one of the `n` bins,
while a measurement at exactly the maximum time `b` satisfies no bin's
query — the final edge is exclusive like all the others, so the
maximum-timestamp measurement is dropped. -/
theorem C1_equal_width_partition (lc : List Measurement) (n : ℕ) (a b : ℚ)
    (m : Measurement) (hn : 1 ≤ n) (hab : a < b) (hm : m ∈ lc)
    (hlo : a ≤ m.obsmjd) :
    (m.obsmjd < b → ∃! i : ℕ, i < n ∧
      m ∈ binQuery lc (binEdge a b n i) (binEdge a b n (i + 1))) ∧
    (m.obsmjd = b → ∀ i : ℕ, i < n →
      m ∉ binQuery lc (binEdge a b n i) (binEdge a b n (i + 1))) := by
  have hb : (0:ℚ) < b - a := by linarith
  have hn0 : 0 < n := hn
  have hn2 : (0:ℚ) < (n:ℚ) := by exact_mod_cast hn0
  have hmem : ∀ lo hi : ℚ, m ∈ binQuery lc lo hi ↔
      lo ≤ m.obsmjd ∧ m.obsmjd < hi := by
    intro lo hi
    rw [binQuery, List.mem_filter]
    constructor
    · rintro ⟨_, h2⟩
      exact of_decide_eq_true h2
    · intro h2
      exact ⟨hm, decide_eq_true h2⟩
  constructor
  · intro hlt
    have hcond : ∀ i : ℕ,
        (binEdge a b n i ≤ m.obsmjd ∧ m.obsmjd < binEdge a b n (i + 1)) ↔
        (i : ℤ) = ⌊(m.obsmjd - a) * n / (b - a)⌋ := by
      intro i
      rw [binEdge_le_iff hn hab, lt_binEdge_iff hn hab]
      constructor
      · rintro ⟨h1, h2⟩
        have hle : (i : ℤ) ≤ ⌊(m.obsmjd - a) * n / (b - a)⌋ :=
          Int.le_floor.mpr (by exact_mod_cast h1)
        have hlt2 : ⌊(m.obsmjd - a) * n / (b - a)⌋ < (i : ℤ) + 1 :=
          Int.floor_lt.mpr (by push_cast; push_cast at h2; exact h2)
        omega
      · intro hieq
        constructor
        · have h4 := Int.floor_le ((m.obsmjd - a) * n / (b - a))
          rw [← hieq] at h4
          exact_mod_cast h4
        · have h4 := Int.lt_floor_add_one ((m.obsmjd - a) * n / (b - a))
          rw [← hieq] at h4
          push_cast
          push_cast at h4
          exact h4
    have hu0 : 0 ≤ (m.obsmjd - a) * n / (b - a) := by
      apply div_nonneg _ (le_of_lt hb)
      have : (0:ℚ) ≤ m.obsmjd - a := by linarith
      positivity
    have hun : (m.obsmjd - a) * n / (b - a) < n := by
      rw [div_lt_iff₀ hb]
      have h5 : m.obsmjd - a < b - a := by linarith
      calc (m.obsmjd - a) * (n:ℚ) < (b - a) * n := by
            exact mul_lt_mul_of_pos_right h5 hn2
        _ = (n:ℚ) * (b - a) := by ring
    have hfl0 : 0 ≤ ⌊(m.obsmjd - a) * n / (b - a)⌋ := Int.floor_nonneg.mpr hu0
    have hfln : ⌊(m.obsmjd - a) * n / (b - a)⌋ < (n : ℤ) :=
      Int.floor_lt.mpr (by exact_mod_cast hun)
    refine ⟨⌊(m.obsmjd - a) * n / (b - a)⌋.toNat, ⟨?_, ?_⟩, ?_⟩
    · omega
    · rw [hmem, hcond]
      omega
    · rintro j ⟨_, hjmem⟩
      rw [hmem, hcond] at hjmem
      omega
  · intro heq i hi hmemi
    rw [hmem] at hmemi
    have h2 := hmemi.2
    rw [heq, lt_binEdge_iff hn hab] at h2
    have hub : (b - a) * (n:ℚ) / (b - a) = (n:ℚ) := by
      field_simp
    rw [hub] at h2
    have h3 : n < i + 1 := by exact_mod_cast h2
    omega

/-- C1 witness: with two measurements at times 0 and 1 and a single bin
over `[0, 1]`, the first measurement is assigned to exactly one bin and
the one at the maximum timestamp to none. -/
theorem C1_witness :
    (∃! i : ℕ, i < 1 ∧ C1wm0 ∈ binQuery [C1wm0, C1wm1]
      (binEdge 0 1 1 i) (binEdge 0 1 1 (i + 1))) ∧
    (∀ i : ℕ, i < 1 → C1wm1 ∉ binQuery [C1wm0, C1wm1]
      (binEdge 0 1 1 i) (binEdge 0 1 1 (i + 1))) :=
  ⟨(C1_equal_width_partition [C1wm0, C1wm1] 1 0 1 C1wm0 (by decide)
      (by decide) (by decide) (by decide)).1 (by decide),
   (C1_equal_width_partition [C1wm0, C1wm1] 1 0 1 C1wm1 (by decide)
      (by decide) (by decide) (by decide)).2 (by decide)⟩

end ModelSED
